import Mathlib

/-!
Verification of the victor-core orchestration layer.

This file gives a shallow embedding of the core algorithms of the
repository (the real-time feedback optimizer, the iterative refinement
engine, the adaptive style-transfer fusion map, the ensemble generator
and the semantic-analysis cache) and proves, or refutes, the testable
properties stated in the specification.

Conventions of the embedding:
* TypeScript numbers are modelled as exact rationals; all source
  constants (0.3, 0.85, 1.2, ...) are rational literals, so equalities
  proved here are exact and therefore hold within every tolerance.
* Calls to the external inference backend (the z-ai chat client) are
  modelled by explicit oracles: a function from the call index to the
  outcome of that call.  Nondeterministic environment data that no
  verified property depends on (wall-clock timestamps, random ids) is
  omitted from the records; each omission is noted where it occurs.
* A JavaScript `Map` is modelled as an association list with
  insertion-order semantics (`mapSet` replaces an existing key in
  place, otherwise appends), matching the iteration order guarantees
  of the ECMAScript specification.
-/

set_option maxHeartbeats 1000000
set_option maxRecDepth 10000

/-- JavaScript `Map.set`: replace the value of an existing key in place,
otherwise append the binding at the end (insertion order). -/
def mapSet {α : Type} : List (String × α) → String → α → List (String × α)
  | [], k, v => [(k, v)]
  | (k₀, v₀) :: rest, k, v =>
      if k₀ = k then (k, v) :: rest else (k₀, v₀) :: mapSet rest k v

/-- JavaScript `Map.get`: first binding of the key, if any. -/
def lookupMap {α : Type} : List (String × α) → String → Option α
  | [], _ => none
  | (k₀, v₀) :: rest, k => if k₀ = k then some v₀ else lookupMap rest k

/-- Sum of the values of an association list with rational values. -/
def sumValues (l : List (String × ℚ)) : ℚ := (l.map Prod.snd).sum

theorem lookupMap_mapSet_self {α : Type} (l : List (String × α)) (k : String) (v : α) :
    lookupMap (mapSet l k v) k = some v := by
  induction l with
  | nil => simp [mapSet, lookupMap]
  | cons hd tl ih =>
      obtain ⟨k₀, v₀⟩ := hd
      by_cases h : k₀ = k
      · simp [mapSet, lookupMap, h]
      · simp [mapSet, lookupMap, h, ih]

theorem mapSet_length_ge {α : Type} (l : List (String × α)) (k : String) (v : α) :
    l.length ≤ (mapSet l k v).length := by
  induction l with
  | nil => simp [mapSet]
  | cons hd tl ih =>
      obtain ⟨k₀, v₀⟩ := hd
      by_cases h : k₀ = k
      · simp [mapSet, h]
      · simpa [mapSet, h] using ih

theorem mapSet_values_pos (l : List (String × ℚ)) (k : String) (v : ℚ)
    (hl : ∀ p ∈ l, 0 < p.2) (hv : 0 < v) :
    ∀ p ∈ mapSet l k v, 0 < p.2 := by
  induction l with
  | nil =>
      intro p hp
      simp [mapSet] at hp
      simpa [hp] using hv
  | cons hd tl ih =>
      obtain ⟨k₀, v₀⟩ := hd
      intro p hp
      by_cases h : k₀ = k
      · simp [mapSet, h] at hp
        rcases hp with hp | hp
        · simpa [hp] using hv
        · exact hl p (List.mem_cons_of_mem _ hp)
      · simp [mapSet, h] at hp
        rcases hp with hp | hp
        · exact hl p (by simp [hp])
        · exact ih (fun q hq => hl q (List.mem_cons_of_mem _ hq)) p hp

theorem keys_mapSet_fresh {α : Type} (l : List (String × α)) (k : String) (v : α)
    (h : k ∉ l.map Prod.fst) :
    (mapSet l k v).map Prod.fst = l.map Prod.fst ++ [k] := by
  induction l with
  | nil => simp [mapSet]
  | cons hd tl ih =>
      obtain ⟨k₀, v₀⟩ := hd
      simp only [List.map_cons, List.mem_cons] at h
      push_neg at h
      have hk : k₀ ≠ k := fun hk => h.1 hk.symm
      simp [mapSet, hk, ih h.2]

theorem sum_pos_of_all_pos (l : List (String × ℚ)) (hne : l ≠ [])
    (hl : ∀ p ∈ l, 0 < p.2) : 0 < sumValues l := by
  induction l with
  | nil => exact absurd rfl hne
  | cons hd tl ih =>
      have hhd : 0 < hd.2 := hl hd (by simp)
      cases tl with
      | nil => simpa [sumValues] using hhd
      | cons x xs =>
          have htl : 0 < sumValues (x :: xs) :=
            ih (by simp) (fun p hp => hl p (List.mem_cons_of_mem _ hp))
          simp only [sumValues, List.map_cons, List.sum_cons] at htl ⊢
          positivity

/-- Dividing every value of an association list divides the sum. -/
theorem sumValues_map_div (l : List (String × ℚ)) (t : ℚ) :
    sumValues (l.map (fun p => (p.1, p.2 / t))) = sumValues l / t := by
  induction l with
  | nil => simp [sumValues]
  | cons hd tl ih =>
      simp only [sumValues, List.map_cons, List.sum_cons] at ih ⊢
      rw [ih, add_div]

/-- Stable insertion into a list sorted by `key` descending: the new
element goes before the first element whose key is not larger, so an
element inserted later than equal-keyed elements stays after them.
This reproduces the (stable) ECMAScript `Array.prototype.sort` with the
comparator `(a, b) => key(b) - key(a)`. -/
def insertDescBy {α : Type} {β : Type} [LinearOrder β] (key : α → β) (x : α) :
    List α → List α
  | [] => [x]
  | y :: ys => if key y ≤ key x then x :: y :: ys else y :: insertDescBy key x ys

/-- Stable sort, descending by `key`: the unique permutation that is
sorted under the comparator and keeps equal-keyed elements in their
original order, as the ECMAScript stable sort produces. -/
def sortDescBy {α : Type} {β : Type} [LinearOrder β] (key : α → β) : List α → List α
  | [] => []
  | x :: xs => insertDescBy key x (sortDescBy key xs)

theorem mem_insertDescBy {α β : Type} [LinearOrder β] (key : α → β) (x : α)
    (l : List α) (a : α) : a ∈ insertDescBy key x l ↔ a = x ∨ a ∈ l := by
  induction l with
  | nil => simp [insertDescBy]
  | cons y ys ih =>
      by_cases h : key y ≤ key x
      · simp [insertDescBy, h]
      · simp only [insertDescBy, if_neg h, List.mem_cons, ih]
        tauto

theorem length_insertDescBy {α β : Type} [LinearOrder β] (key : α → β) (x : α)
    (l : List α) : (insertDescBy key x l).length = l.length + 1 := by
  induction l with
  | nil => simp [insertDescBy]
  | cons y ys ih =>
      by_cases h : key y ≤ key x
      · simp [insertDescBy, h]
      · simp [insertDescBy, h, ih]

theorem length_sortDescBy {α β : Type} [LinearOrder β] (key : α → β)
    (l : List α) : (sortDescBy key l).length = l.length := by
  induction l with
  | nil => rfl
  | cons x xs ih => simp [sortDescBy, length_insertDescBy, ih]

theorem pairwise_insertDescBy {α β : Type} [LinearOrder β] (key : α → β) (x : α)
    (l : List α) (hl : l.Pairwise (fun a b => key b ≤ key a)) :
    (insertDescBy key x l).Pairwise (fun a b => key b ≤ key a) := by
  induction l with
  | nil => simp [insertDescBy]
  | cons y ys ih =>
      rcases List.pairwise_cons.mp hl with ⟨hy, hys⟩
      by_cases h : key y ≤ key x
      · simp only [insertDescBy, if_pos h]
        refine List.pairwise_cons.mpr ⟨?_, hl⟩
        intro z hz
        rcases List.mem_cons.mp hz with hz | hz
        · simpa [hz] using h
        · exact le_trans (hy z hz) h
      · simp only [insertDescBy, if_neg h]
        refine List.pairwise_cons.mpr ⟨?_, ih hys⟩
        intro z hz
        rcases (mem_insertDescBy key x ys z).mp hz with hz | hz
        · exact hz ▸ le_of_lt (lt_of_not_le h)
        · exact hy z hz

theorem pairwise_sortDescBy {α β : Type} [LinearOrder β] (key : α → β)
    (l : List α) : (sortDescBy key l).Pairwise (fun a b => key b ≤ key a) := by
  induction l with
  | nil => simp [sortDescBy]
  | cons x xs ih => exact pairwise_insertDescBy key x _ ih

theorem filter_key_insertDescBy {α β : Type} [LinearOrder β] (key : α → β) (x : α)
    (l : List α) (p : β) :
    (insertDescBy key x l).filter (fun a => key a = p) =
      if key x = p then x :: l.filter (fun a => key a = p)
      else l.filter (fun a => key a = p) := by
  induction l with
  | nil =>
      by_cases hx : key x = p <;> simp [insertDescBy, List.filter, hx]
  | cons y ys ih =>
      by_cases h : key y ≤ key x
      · simp only [insertDescBy, if_pos h]
        by_cases hx : key x = p <;> by_cases hy : key y = p <;>
          simp [List.filter_cons, hx, hy]
      · simp only [insertDescBy, if_neg h]
        have hxy : key x < key y := lt_of_not_le h
        by_cases hy : key y = p
        · have hx : ¬ key x = p := fun hx => absurd (hx.trans hy.symm) (ne_of_lt hxy)
          simp [List.filter_cons, hy, hx, ih]
        · by_cases hx : key x = p <;> simp [List.filter_cons, hy, hx, ih]

/-- Stability of the descending sort: within each key value the original
order is preserved. -/
theorem filter_key_sortDescBy {α β : Type} [LinearOrder β] (key : α → β)
    (l : List α) (p : β) :
    (sortDescBy key l).filter (fun a => key a = p) =
      l.filter (fun a => key a = p) := by
  induction l with
  | nil => rfl
  | cons x xs ih =>
      rw [sortDescBy, filter_key_insertDescBy]
      by_cases hx : key x = p <;> simp [List.filter_cons, hx, ih]

theorem length_filterMap_eq_count {α β : Type} (f : α → Option β) (l : List α) :
    (l.filterMap f).length = (l.filter (fun a => (f a).isSome)).length := by
  induction l with
  | nil => rfl
  | cons x xs ih =>
      cases hx : f x <;> simp [List.filterMap_cons, List.filter_cons, hx, ih]

namespace Optimizer

/-!
Embedding of `src/victorcore/src/lib/realtime-optimizer.ts`
(`RealTimeOptimizer`).  Metric values and thresholds are exact
rationals.  The nondeterministic parts of a `FeedbackLoop` record
(`id` from `Date.now`/`Math.random`, `timestamp`, the `iteration`
counter read from the mutable map size, and the initial dummy
`result`) affect no verified property and are omitted.
-/

inductive Severity where
  | low
  | medium
  | high
  | critical
deriving DecidableEq, Repr

inductive Trend where
  | improving
  | declining
  | stable
deriving DecidableEq, Repr

inductive FeedbackType where
  | quality
  | performance
  | efficiency
  | user
deriving DecidableEq, Repr

inductive ActionType where
  | parameter_adjustment
  | model_switch
  | technique_change
  | resource_allocation
  | algorithm_tuning
deriving DecidableEq, Repr

/-- Value of an entry of an action parameter bag (booleans or strings in
the source). -/
inductive ParamValue where
  | b (v : Bool)
  | s (v : String)
deriving DecidableEq, Repr

structure OptimizationAction where
  type : ActionType
  parameters : List (String × ParamValue)
  priority : ℕ
  estimatedImpact : ℚ
deriving DecidableEq, Repr

structure FeedbackTrigger where
  metric : String
  threshold : ℚ
  currentValue : ℚ
  trend : Trend
  severity : Severity
deriving DecidableEq, Repr

structure FeedbackLoop where
  type : FeedbackType
  trigger : FeedbackTrigger
  action : OptimizationAction
deriving DecidableEq, Repr

structure Thresholds where
  critical : ℚ
  low : ℚ
  medium : ℚ
deriving DecidableEq, Repr

/-- `RealTimeOptimizer.getThresholds` (lines 299-331).  The source
object literal repeats the key `scalability` with identical values; a
duplicate key in a JavaScript object literal keeps the last value, so
one entry suffices. -/
def getThresholds (metricName : String) : Thresholds :=
  if metricName = "processingSpeed" then ⟨3/10, 5/10, 7/10⟩
  else if metricName = "memoryUsage" then ⟨8/10, 6/10, 4/10⟩
  else if metricName = "responseTime" then ⟨3/10, 5/10, 7/10⟩
  else if metricName = "throughput" then ⟨4/10, 6/10, 8/10⟩
  else if metricName = "scalability" then ⟨4/10, 6/10, 7/10⟩
  else if metricName = "accuracy" then ⟨5/10, 7/10, 8/10⟩
  else if metricName = "consistency" then ⟨6/10, 75/100, 85/100⟩
  else if metricName = "robustness" then ⟨5/10, 65/100, 75/100⟩
  else if metricName = "fidelity" then ⟨6/10, 75/100, 8/10⟩
  else if metricName = "innovation" then ⟨4/10, 6/10, 7/10⟩
  else if metricName = "resourceUtilization" then ⟨8/10, 6/10, 4/10⟩
  else if metricName = "energyEfficiency" then ⟨4/10, 6/10, 7/10⟩
  else if metricName = "costEffectiveness" then ⟨5/10, 65/100, 8/10⟩
  else if metricName = "timeEfficiency" then ⟨4/10, 6/10, 75/100⟩
  else if metricName = "engagement" then ⟨4/10, 6/10, 7/10⟩
  else if metricName = "retention" then ⟨5/10, 65/100, 8/10⟩
  else if metricName = "satisfaction" then ⟨5/10, 65/100, 75/100⟩
  else if metricName = "feedbackScore" then ⟨4/10, 6/10, 7/10⟩
  else if metricName = "recommendation" then ⟨5/10, 65/100, 8/10⟩
  else ⟨3/10, 5/10, 7/10⟩

/-- `RealTimeOptimizer.generateOptimizationAction` (lines 375-455): a
lookup on the trigger metric name with a general-purpose default. -/
def generateOptimizationAction (metric : String) : OptimizationAction :=
  if metric = "processingSpeed" then
    ⟨.parameter_adjustment,
      [("boostProcessing", .b true), ("priorityLevel", .s "high")], 9, 3/10⟩
  else if metric = "memoryUsage" then
    ⟨.resource_allocation,
      [("optimizeMemory", .b true), ("cleanupEnabled", .b true)], 8, 25/100⟩
  else if metric = "responseTime" then
    ⟨.algorithm_tuning,
      [("optimizeAlgorithm", .b true), ("cacheEnabled", .b true)], 8, 2/10⟩
  else if metric = "accuracy" then
    ⟨.model_switch,
      [("useAdvancedModel", .b true), ("ensembleEnabled", .b true)], 9, 35/100⟩
  else if metric = "consistency" then
    ⟨.technique_change,
      [("consistencyCheck", .b true), ("validationEnabled", .b true)], 7, 2/10⟩
  else if metric = "innovation" then
    ⟨.algorithm_tuning,
      [("creativeMode", .b true), ("explorationEnabled", .b true)], 6, 15/100⟩
  else if metric = "resourceUtilization" then
    ⟨.resource_allocation,
      [("optimizeResources", .b true), ("loadBalancing", .b true)], 8, 3/10⟩
  else if metric = "energyEfficiency" then
    ⟨.parameter_adjustment,
      [("powerSaving", .b true), ("efficiencyMode", .b true)], 7, 2/10⟩
  else if metric = "engagement" then
    ⟨.technique_change,
      [("enhanceUX", .b true), ("interactiveFeatures", .b true)], 8, 25/100⟩
  else if metric = "satisfaction" then
    ⟨.parameter_adjustment,
      [("qualityFocus", .b true), ("userCentric", .b true)], 9, 3/10⟩
  else
    ⟨.parameter_adjustment, [("generalOptimization", .b true)], 5, 1/10⟩

/-- `RealTimeOptimizer.createFeedbackLoop` (lines 336-370), without the
environment-dependent id/timestamp/iteration fields. -/
def createFeedbackLoop (metric : String) (currentValue threshold : ℚ)
    (type : FeedbackType) (severity : Severity) : FeedbackLoop :=
  { type := type
    trigger :=
      { metric := metric
        threshold := threshold
        currentValue := currentValue
        trend := .declining
        severity := severity }
    action := generateOptimizationAction metric }

/-- `RealTimeOptimizer.evaluateMetric` (lines 256-294): the value is
compared with `<` against the three thresholds for every metric,
regardless of the metric direction. -/
def evaluateMetric (metricName : String) (value : ℚ) (type : FeedbackType) :
    Option FeedbackLoop :=
  let thresholds := getThresholds metricName
  if value < thresholds.critical then
    some (createFeedbackLoop metricName value thresholds.critical type .critical)
  else if value < thresholds.low then
    some (createFeedbackLoop metricName value thresholds.low type .high)
  else if value < thresholds.medium then
    some (createFeedbackLoop metricName value thresholds.medium type .medium)
  else
    none

structure PerformanceMetrics where
  processingSpeed : ℚ
  memoryUsage : ℚ
  responseTime : ℚ
  throughput : ℚ
  scalability : ℚ
deriving DecidableEq, Repr

structure QualityMetrics where
  accuracy : ℚ
  consistency : ℚ
  robustness : ℚ
  fidelity : ℚ
  innovation : ℚ
deriving DecidableEq, Repr

structure EfficiencyMetrics where
  resourceUtilization : ℚ
  energyEfficiency : ℚ
  costEffectiveness : ℚ
  timeEfficiency : ℚ
  scalability : ℚ
deriving DecidableEq, Repr

structure UserSatisfactionMetrics where
  engagement : ℚ
  retention : ℚ
  satisfaction : ℚ
  feedbackScore : ℚ
  recommendation : ℚ
deriving DecidableEq, Repr

structure OptimizationMetrics where
  performance : PerformanceMetrics
  quality : QualityMetrics
  efficiency : EfficiencyMetrics
  userSatisfaction : UserSatisfactionMetrics
deriving DecidableEq, Repr

/-- The `(name, value, category)` entries visited by the nested loops of
`identifyOptimizationOpportunities` (lines 226-245): categories in the
order performance, quality, efficiency, userSatisfaction, fields in
interface declaration order (`Object.entries` insertion order). -/
def metricEntries (m : OptimizationMetrics) : List (String × ℚ × FeedbackType) :=
  [ ("processingSpeed", m.performance.processingSpeed, .performance),
    ("memoryUsage", m.performance.memoryUsage, .performance),
    ("responseTime", m.performance.responseTime, .performance),
    ("throughput", m.performance.throughput, .performance),
    ("scalability", m.performance.scalability, .performance),
    ("accuracy", m.quality.accuracy, .quality),
    ("consistency", m.quality.consistency, .quality),
    ("robustness", m.quality.robustness, .quality),
    ("fidelity", m.quality.fidelity, .quality),
    ("innovation", m.quality.innovation, .quality),
    ("resourceUtilization", m.efficiency.resourceUtilization, .efficiency),
    ("energyEfficiency", m.efficiency.energyEfficiency, .efficiency),
    ("costEffectiveness", m.efficiency.costEffectiveness, .efficiency),
    ("timeEfficiency", m.efficiency.timeEfficiency, .efficiency),
    ("scalability", m.efficiency.scalability, .efficiency),
    ("engagement", m.userSatisfaction.engagement, .user),
    ("retention", m.userSatisfaction.retention, .user),
    ("satisfaction", m.userSatisfaction.satisfaction, .user),
    ("feedbackScore", m.userSatisfaction.feedbackScore, .user),
    ("recommendation", m.userSatisfaction.recommendation, .user) ]

/-- Breaches in detection order: the `opportunities` list before the
final sort of `identifyOptimizationOpportunities`. -/
def detectOpportunities (m : OptimizationMetrics) : List FeedbackLoop :=
  (metricEntries m).filterMap (fun e => evaluateMetric e.1 e.2.1 e.2.2)

/-- `RealTimeOptimizer.identifyOptimizationOpportunities` (lines
220-251): detected breaches, stably sorted by action priority
descending. -/
def identifyOptimizationOpportunities (m : OptimizationMetrics) : List FeedbackLoop :=
  sortDescBy (fun f => f.action.priority) (detectOpportunities m)

/-- The opportunities executed by one cycle
(`runOptimizationCycle`, line 151: `opportunities.slice(0,
maxOptimizationsPerCycle)`). -/
def runCycleSelection (m : OptimizationMetrics) (maxOptimizationsPerCycle : ℕ) :
    List FeedbackLoop :=
  (identifyOptimizationOpportunities m).take maxOptimizationsPerCycle

/-- The observable optimizer state relevant to the start/stop protocol:
the `enableRealTimeOptimization` config flag, the `isOptimizing`
reentrancy guard, whether `startOptimizationCycle` has registered the
(never cleared) interval, and how many cycles have started. -/
structure OptimizerState where
  enableRealTimeOptimization : Bool
  isOptimizing : Bool
  intervalActive : Bool
  cyclesStarted : ℕ
deriving DecidableEq, Repr

/-- `RealTimeOptimizer.startOptimizationCycle` (lines 124-132):
registers the `setInterval` timer. -/
def startOptimizationCycle (s : OptimizerState) : OptimizerState :=
  { s with intervalActive := true }

/-- `RealTimeOptimizer.stop` (lines 675-678): only clears the config
flag; the interval registered by `startOptimizationCycle` is never
cleared. -/
def stop (s : OptimizerState) : OptimizerState :=
  { s with enableRealTimeOptimization := false }

/-- One firing of the interval callback (lines 127-131): it consults
only `isOptimizing` — never `enableRealTimeOptimization` — and runs a
full optimization cycle when no cycle is in flight.  The model lets the
cycle run to completion within the tick (`isOptimizing` is set and then
reset by the `finally` of `runOptimizationCycle`). -/
def intervalTick (s : OptimizerState) : OptimizerState :=
  if s.intervalActive && !s.isOptimizing then
    { s with cyclesStarted := s.cyclesStarted + 1 }
  else
    s

end Optimizer

namespace Optimizer

/-- C1.  The code evaluates every metric with the uniform comparison
`value < threshold` and is not direction-aware: for the high-is-bad
metric `memoryUsage` (thresholds critical 0.8, low 0.6, medium 0.4) a
genuinely critical value 0.9 produces no FeedbackLoop at all, while the
healthy value 0.2 produces one with severity `critical`.  The low-is-bad
direction (here `throughput`) behaves as the claim states.  This
contradicts the direction-aware thresholds promised by the spec and the
code's own recommendation text, which describes a memoryUsage breach as
`currentValue > threshold`. -/
theorem evaluateMetric_not_direction_aware :
    evaluateMetric "memoryUsage" (9/10) .performance = none ∧
    (evaluateMetric "memoryUsage" (2/10) .performance).map
      (fun f => f.trigger.severity) = some .critical ∧
    (evaluateMetric "throughput" (3/10) .performance).map
      (fun f => f.trigger.severity) = some .critical ∧
    evaluateMetric "throughput" (9/10) .performance = none := by
  refine ⟨?_, ?_, ?_, ?_⟩ <;>
    · simp [evaluateMetric, getThresholds, createFeedbackLoop]
      norm_num

/-- C3.  `stop()` only clears the `enableRealTimeOptimization` config
flag.  The interval registered by `startOptimizationCycle` is never
cleared and its callback checks only `isOptimizing`, so the very next
tick after `stop()` (with no cycle in flight) starts a new optimization
cycle.  The state below is a running optimizer (flag on, interval
registered, idle); after `stop()` one tick still increments the
started-cycle count. -/
theorem stop_does_not_prevent_new_cycles :
    (stop ⟨true, false, true, 0⟩).enableRealTimeOptimization = false ∧
    (intervalTick (stop ⟨true, false, true, 0⟩)).cyclesStarted = 1 := by
  exact ⟨rfl, rfl⟩

/-- C7.  In a cycle whose detected breaches (detection order) are
`detectOpportunities m`, the executed selection
`runCycleSelection m M` contains exactly `min B M` actions (`B` the
number of breaches); the full sorted opportunity list is in descending
action-priority order; every executed action has priority at least that
of every non-executed one; and within one priority value the sorted
order preserves detection order (stable tie-break). -/
theorem cycle_executes_top_priority_breaches
    (m : OptimizationMetrics) (M : ℕ) :
    (runCycleSelection m M).length = min (detectOpportunities m).length M ∧
    (identifyOptimizationOpportunities m).Pairwise
      (fun a b => b.action.priority ≤ a.action.priority) ∧
    (∀ x ∈ runCycleSelection m M,
      ∀ y ∈ (identifyOptimizationOpportunities m).drop M,
        y.action.priority ≤ x.action.priority) ∧
    (∀ p : ℕ,
      (identifyOptimizationOpportunities m).filter
          (fun f => f.action.priority = p) =
        (detectOpportunities m).filter (fun f => f.action.priority = p)) := by
  refine ⟨?_, ?_, ?_, ?_⟩
  · rw [runCycleSelection, List.length_take, identifyOptimizationOpportunities,
      length_sortDescBy, Nat.min_comm]
  · exact pairwise_sortDescBy _ _
  · intro x hx y hy
    have hpw := pairwise_sortDescBy (fun f : FeedbackLoop => f.action.priority)
      (detectOpportunities m)
    rw [← identifyOptimizationOpportunities] at hpw
    rw [← List.take_append_drop M (identifyOptimizationOpportunities m)] at hpw
    rcases List.pairwise_append.mp hpw with ⟨-, -, hcross⟩
    exact hcross x hx y hy
  · intro p
    exact filter_key_sortDescBy _ _ p

end Optimizer

namespace Refinement

/-!
Embedding of the `RefinementEngine` part of
`src/victorcore/src/lib/realtime-optimizer.ts` (the second module in
that file, lines 701-1307).  Each call to the quality-assessment
backend is one element of an oracle `ℕ → AssessOutcome`: call 0 is the
initial assessment, call `i + 1` the re-assessment of iteration `i`.
A technique's `apply` (an async backend call in the source, whose
error path falls back to `basicEnhancement`, itself returning the
input image) is modelled as a total function on images.  The
environment-dependent `processingTime` of a step is omitted.
-/

structure TechnicalQuality where
  resolution : ℚ
  clarity : ℚ
  noise : ℚ
  artifacts : ℚ
  compression : ℚ
  sharpness : ℚ
deriving DecidableEq, Repr

structure ArtisticQuality where
  composition : ℚ
  colorHarmony : ℚ
  balance : ℚ
  contrast : ℚ
  creativity : ℚ
  originality : ℚ
  aestheticAppeal : ℚ
deriving DecidableEq, Repr

structure SemanticQuality where
  coherence : ℚ
  relevance : ℚ
  depth : ℚ
  consistency : ℚ
  conceptualClarity : ℚ
  meaningFulness : ℚ
deriving DecidableEq, Repr

structure UserPreferenceQuality where
  styleAlignment : ℚ
  promptAdherence : ℚ
  emotionalResonance : ℚ
  visualSatisfaction : ℚ
deriving DecidableEq, Repr

structure QualityMetrics where
  overall : ℚ
  technical : TechnicalQuality
  artistic : ArtisticQuality
  semantic : SemanticQuality
  userPreference : UserPreferenceQuality
deriving DecidableEq, Repr

/-- The optional numeric fields of a parsed backend response
(`data.technical?.clarity` and friends).  `none` is an absent field. -/
structure RawTechnical where
  resolution : Option ℚ := none
  clarity : Option ℚ := none
  noise : Option ℚ := none
  artifacts : Option ℚ := none
  compression : Option ℚ := none
  sharpness : Option ℚ := none
deriving DecidableEq, Repr

structure RawArtistic where
  composition : Option ℚ := none
  colorHarmony : Option ℚ := none
  balance : Option ℚ := none
  contrast : Option ℚ := none
  creativity : Option ℚ := none
  originality : Option ℚ := none
  aestheticAppeal : Option ℚ := none
deriving DecidableEq, Repr

structure RawSemantic where
  coherence : Option ℚ := none
  relevance : Option ℚ := none
  depth : Option ℚ := none
  consistency : Option ℚ := none
  conceptualClarity : Option ℚ := none
  meaningFulness : Option ℚ := none
deriving DecidableEq, Repr

structure RawUserPreference where
  styleAlignment : Option ℚ := none
  promptAdherence : Option ℚ := none
  emotionalResonance : Option ℚ := none
  visualSatisfaction : Option ℚ := none
deriving DecidableEq, Repr

structure RawQualityData where
  overall : Option ℚ := none
  technical : RawTechnical := {}
  artistic : RawArtistic := {}
  semantic : RawSemantic := {}
  userPreference : RawUserPreference := {}
deriving DecidableEq, Repr

/-- Outcome of one quality-assessment backend call: transport error
(the outer catch), a response without message content, content that
`JSON.parse` rejects (also caught), or parsed data. -/
inductive AssessOutcome where
  | transportError
  | noContent
  | unparsable
  | parsed (data : RawQualityData)
deriving DecidableEq, Repr

/-- JavaScript `x || 0.5` on an optional number: absent and `0` are
falsy, every other number passes through. -/
def jsOr (v : Option ℚ) (d : ℚ) : ℚ :=
  match v with
  | none => d
  | some x => if x = 0 then d else x

/-- `RefinementEngine.processQualityMetrics` (lines 1032-1067). -/
def processQualityMetrics (data : RawQualityData) : QualityMetrics :=
  { overall := jsOr data.overall (1/2)
    technical :=
      { resolution := jsOr data.technical.resolution (1/2)
        clarity := jsOr data.technical.clarity (1/2)
        noise := jsOr data.technical.noise (1/2)
        artifacts := jsOr data.technical.artifacts (1/2)
        compression := jsOr data.technical.compression (1/2)
        sharpness := jsOr data.technical.sharpness (1/2) }
    artistic :=
      { composition := jsOr data.artistic.composition (1/2)
        colorHarmony := jsOr data.artistic.colorHarmony (1/2)
        balance := jsOr data.artistic.balance (1/2)
        contrast := jsOr data.artistic.contrast (1/2)
        creativity := jsOr data.artistic.creativity (1/2)
        originality := jsOr data.artistic.originality (1/2)
        aestheticAppeal := jsOr data.artistic.aestheticAppeal (1/2) }
    semantic :=
      { coherence := jsOr data.semantic.coherence (1/2)
        relevance := jsOr data.semantic.relevance (1/2)
        depth := jsOr data.semantic.depth (1/2)
        consistency := jsOr data.semantic.consistency (1/2)
        conceptualClarity := jsOr data.semantic.conceptualClarity (1/2)
        meaningFulness := jsOr data.semantic.meaningFulness (1/2) }
    userPreference :=
      { styleAlignment := jsOr data.userPreference.styleAlignment (1/2)
        promptAdherence := jsOr data.userPreference.promptAdherence (1/2)
        emotionalResonance := jsOr data.userPreference.emotionalResonance (1/2)
        visualSatisfaction := jsOr data.userPreference.visualSatisfaction (1/2) } }

/-- `RefinementEngine.getDefaultQualityMetrics` (lines 1072-1107). -/
def getDefaultQualityMetrics : QualityMetrics :=
  { overall := 1/2
    technical :=
      { resolution := 1/2, clarity := 1/2, noise := 1/2, artifacts := 1/2
        compression := 1/2, sharpness := 1/2 }
    artistic :=
      { composition := 1/2, colorHarmony := 1/2, balance := 1/2, contrast := 1/2
        creativity := 1/2, originality := 1/2, aestheticAppeal := 1/2 }
    semantic :=
      { coherence := 1/2, relevance := 1/2, depth := 1/2, consistency := 1/2
        conceptualClarity := 1/2, meaningFulness := 1/2 }
    userPreference :=
      { styleAlignment := 1/2, promptAdherence := 1/2, emotionalResonance := 1/2
        visualSatisfaction := 1/2 } }

/-- `RefinementEngine.assessQuality` (lines 990-1027): a transport
error, a missing content field and unparsable content all yield the
default metrics; parsed data goes through `processQualityMetrics`. -/
def assessQuality (o : AssessOutcome) : QualityMetrics :=
  match o with
  | .parsed data => processQualityMetrics data
  | _ => getDefaultQualityMetrics

inductive TechCategory where
  | technical
  | artistic
  | semantic
  | composite
deriving DecidableEq, Repr

inductive AdaptiveStrategy where
  | conservative
  | balanced
  | aggressive
deriving DecidableEq, Repr

structure RefinementTechnique where
  name : String
  category : TechCategory
  strength : ℚ
  applicability : QualityMetrics → Bool
  apply : String → String

structure RefinementConfig where
  maxIterations : ℕ
  qualityThreshold : ℚ
  improvementThreshold : ℚ
  techniques : List RefinementTechnique
  adaptiveStrategy : AdaptiveStrategy

structure QualityImprovements where
  overall : ℚ
  technical : TechnicalQuality
  artistic : ArtisticQuality
  semantic : SemanticQuality
  userPreference : UserPreferenceQuality
deriving DecidableEq, Repr

structure RefinementStep where
  iteration : ℕ
  inputImage : String
  outputImage : String
  qualityBefore : QualityMetrics
  qualityAfter : QualityMetrics
  improvements : QualityImprovements
  techniquesApplied : List String
deriving DecidableEq, Repr

/-- `RefinementEngine.calculateImprovements` (lines 1112-1147). -/
def calculateImprovements (before after : QualityMetrics) : QualityImprovements :=
  { overall := after.overall - before.overall
    technical :=
      { resolution := after.technical.resolution - before.technical.resolution
        clarity := after.technical.clarity - before.technical.clarity
        noise := after.technical.noise - before.technical.noise
        artifacts := after.technical.artifacts - before.technical.artifacts
        compression := after.technical.compression - before.technical.compression
        sharpness := after.technical.sharpness - before.technical.sharpness }
    artistic :=
      { composition := after.artistic.composition - before.artistic.composition
        colorHarmony := after.artistic.colorHarmony - before.artistic.colorHarmony
        balance := after.artistic.balance - before.artistic.balance
        contrast := after.artistic.contrast - before.artistic.contrast
        creativity := after.artistic.creativity - before.artistic.creativity
        originality := after.artistic.originality - before.artistic.originality
        aestheticAppeal := after.artistic.aestheticAppeal - before.artistic.aestheticAppeal }
    semantic :=
      { coherence := after.semantic.coherence - before.semantic.coherence
        relevance := after.semantic.relevance - before.semantic.relevance
        depth := after.semantic.depth - before.semantic.depth
        consistency := after.semantic.consistency - before.semantic.consistency
        conceptualClarity := after.semantic.conceptualClarity - before.semantic.conceptualClarity
        meaningFulness := after.semantic.meaningFulness - before.semantic.meaningFulness }
    userPreference :=
      { styleAlignment := after.userPreference.styleAlignment - before.userPreference.styleAlignment
        promptAdherence := after.userPreference.promptAdherence - before.userPreference.promptAdherence
        emotionalResonance := after.userPreference.emotionalResonance - before.userPreference.emotionalResonance
        visualSatisfaction := after.userPreference.visualSatisfaction - before.userPreference.visualSatisfaction } }

/-- The score of one technique in `selectBestTechnique` (lines
949-985): strength, plus 0.3 when the technique's category has a weak
key sub-metric, scaled by the adaptive strategy. -/
def techniqueScore (q : QualityMetrics) (strategy : AdaptiveStrategy)
    (t : RefinementTechnique) : ℚ :=
  let base := t.strength
  let base := if t.category = .technical ∧ q.technical.clarity < 7/10 then base + 3/10 else base
  let base := if t.category = .artistic ∧ q.artistic.composition < 7/10 then base + 3/10 else base
  let base := if t.category = .semantic ∧ q.semantic.coherence < 7/10 then base + 3/10 else base
  match strategy with
  | .aggressive => base * (12/10)
  | .conservative => base * (8/10)
  | .balanced => base

/-- `RefinementEngine.selectBestTechnique` (lines 949-985): `reduce`
keeps the earlier element unless a later one scores strictly higher. -/
def selectBestTechnique (q : QualityMetrics) (strategy : AdaptiveStrategy)
    (hd : RefinementTechnique) (tl : List RefinementTechnique) : RefinementTechnique :=
  tl.foldl
    (fun best cur =>
      if techniqueScore q strategy best < techniqueScore q strategy cur then cur else best)
    hd

/-- `RefinementEngine.checkConvergence` (lines 1152-1154). -/
def checkConvergence (quality : QualityMetrics) (config : RefinementConfig) : Bool :=
  config.qualityThreshold ≤ quality.overall

/-- `RefinementEngine.calculateTotalImprovement` (lines 1159-1166):
last `qualityAfter.overall` minus first `qualityBefore.overall`, `0`
for an empty step list. -/
def calculateTotalImprovement (steps : List RefinementStep) : ℚ :=
  match steps.head?, steps.getLast? with
  | some first, some last => last.qualityAfter.overall - first.qualityBefore.overall
  | _, _ => 0

/-- Return value of `refineImage`, plus the final value of the local
`iteration` counter (the number of loop iterations that ran). -/
structure RefineResult where
  finalImage : String
  quality : QualityMetrics
  steps : List RefinementStep
  totalImprovement : ℚ
  converged : Bool
  iteration : ℕ

/-- The `while` loop of `RefinementEngine.refineImage` (lines
836-891), recursing on the remaining iteration budget
`maxIterations - iteration`.  Arguments: budget, current iteration
index, current image, current quality, accumulated steps. -/
def refineLoop (cfg : RefinementConfig) (oracle : ℕ → AssessOutcome) :
    ℕ → ℕ → String → QualityMetrics → List RefinementStep → RefineResult
  | 0, i, img, q, steps =>
      ⟨img, q, steps, calculateTotalImprovement steps, false, i⟩
  | budget + 1, i, img, q, steps =>
      match cfg.techniques.filter (fun t => t.applicability q) with
      | [] => ⟨img, q, steps, calculateTotalImprovement steps, false, i⟩
      | t :: ts =>
          let tech := selectBestTechnique q cfg.adaptiveStrategy t ts
          let outImg := tech.apply img
          let q2 := assessQuality (oracle (i + 1))
          let step : RefinementStep :=
            ⟨i, img, outImg, q, q2, calculateImprovements q q2, [tech.name]⟩
          if checkConvergence q2 cfg then
            ⟨outImg, q2, steps ++ [step], calculateTotalImprovement (steps ++ [step]),
              true, i + 1⟩
          else
            refineLoop cfg oracle budget (i + 1) outImg q2 (steps ++ [step])

/-- `RefinementEngine.refineImage` (lines 806-904): assess the initial
image (backend call 0), run the bounded loop, report the final image,
quality, steps, total improvement and convergence flag. -/
def refineImage (cfg : RefinementConfig) (oracle : ℕ → AssessOutcome)
    (initialImage : String) : RefineResult :=
  refineLoop cfg oracle cfg.maxIterations 0 initialImage
    (assessQuality (oracle 0)) []

/-- The six techniques registered by
`RefinementEngine.initializeTechniques` (lines 1209-1280), in
registration order; each `apply` placeholder returns its input. -/
def defaultTechniques : List RefinementTechnique :=
  [ ⟨"Clarity Enhancement", .technical, 8/10,
      fun m => m.technical.clarity < 8/10, fun img => img⟩,
    ⟨"Noise Reduction", .technical, 7/10,
      fun m => 3/10 < m.technical.noise, fun img => img⟩,
    ⟨"Composition Balance", .artistic, 9/10,
      fun m => m.artistic.composition < 7/10, fun img => img⟩,
    ⟨"Color Harmonization", .artistic, 8/10,
      fun m => m.artistic.colorHarmony < 7/10, fun img => img⟩,
    ⟨"Semantic Coherence", .semantic, 9/10,
      fun m => m.semantic.coherence < 7/10, fun img => img⟩,
    ⟨"Conceptual Clarity", .semantic, 8/10,
      fun m => m.semantic.conceptualClarity < 7/10, fun img => img⟩ ]

/-- The defaults of `fullConfig` in `refineImage` (lines 817-824). -/
def defaultRefinementConfig : RefinementConfig :=
  { maxIterations := 5
    qualityThreshold := 85/100
    improvementThreshold := 2/100
    techniques := defaultTechniques
    adaptiveStrategy := .balanced }

end Refinement

namespace Refinement

/-- Discriminator for the successful-parse outcome of a
quality-assessment call. -/
def AssessOutcome.isParsed : AssessOutcome → Bool
  | .parsed _ => true
  | _ => false

/-- All scores of a quality record equal the neutral 0.5. -/
def allScoresHalf (q : QualityMetrics) : Prop :=
  q.overall = 1/2 ∧
  q.technical.resolution = 1/2 ∧ q.technical.clarity = 1/2 ∧
  q.technical.noise = 1/2 ∧ q.technical.artifacts = 1/2 ∧
  q.technical.compression = 1/2 ∧ q.technical.sharpness = 1/2 ∧
  q.artistic.composition = 1/2 ∧ q.artistic.colorHarmony = 1/2 ∧
  q.artistic.balance = 1/2 ∧ q.artistic.contrast = 1/2 ∧
  q.artistic.creativity = 1/2 ∧ q.artistic.originality = 1/2 ∧
  q.artistic.aestheticAppeal = 1/2 ∧
  q.semantic.coherence = 1/2 ∧ q.semantic.relevance = 1/2 ∧
  q.semantic.depth = 1/2 ∧ q.semantic.consistency = 1/2 ∧
  q.semantic.conceptualClarity = 1/2 ∧ q.semantic.meaningFulness = 1/2 ∧
  q.userPreference.styleAlignment = 1/2 ∧ q.userPreference.promptAdherence = 1/2 ∧
  q.userPreference.emotionalResonance = 1/2 ∧ q.userPreference.visualSatisfaction = 1/2

/-- C8.  Whenever the assessment backend call does not yield parsable
data (transport error, missing content, or unparsable content),
`assessQuality` returns the neutral default metrics object in which the
overall score and every technical, artistic, semantic and
user-preference sub-score equals 0.5; no error is propagated. -/
theorem assessQuality_failure_yields_neutral_default (o : AssessOutcome)
    (h : o.isParsed = false) :
    assessQuality o = getDefaultQualityMetrics ∧
    allScoresHalf (assessQuality o) := by
  have he : assessQuality o = getDefaultQualityMetrics := by
    cases o with
    | parsed d => simp [AssessOutcome.isParsed] at h
    | transportError => rfl
    | noContent => rfl
    | unparsable => rfl
  refine ⟨he, ?_⟩
  rw [he]
  refine ⟨rfl, rfl, rfl, rfl, rfl, rfl, rfl, rfl, rfl, rfl, rfl, rfl,
    rfl, rfl, rfl, rfl, rfl, rfl, rfl, rfl, rfl, rfl, rfl, rfl⟩

/-- Witness for C8: a concrete transport error produces the all-0.5
default metrics. -/
theorem assessQuality_failure_yields_neutral_default_witness :
    AssessOutcome.transportError.isParsed = false ∧
    (assessQuality .transportError = getDefaultQualityMetrics ∧
      allScoresHalf (assessQuality .transportError)) :=
  ⟨rfl, assessQuality_failure_yields_neutral_default .transportError rfl⟩

/-- Each exit of the refinement loop bounds the number of accumulated
steps by the remaining budget and the iteration counter by the budget
added to the entry index. -/
theorem refineLoop_bounds (cfg : RefinementConfig) (oracle : ℕ → AssessOutcome) :
    ∀ (budget i : ℕ) (img : String) (q : QualityMetrics)
      (steps : List RefinementStep),
      (refineLoop cfg oracle budget i img q steps).steps.length ≤
          steps.length + budget ∧
        (refineLoop cfg oracle budget i img q steps).iteration ≤ i + budget := by
  intro budget
  induction budget with
  | zero =>
      intro i img q steps
      simp [refineLoop]
  | succ b ih =>
      intro i img q steps
      cases hfilter : cfg.techniques.filter (fun t => t.applicability q) with
      | nil =>
          simp only [refineLoop, hfilter]
          omega
      | cons t ts =>
          simp only [refineLoop, hfilter]
          cases hconv : checkConvergence (assessQuality (oracle (i + 1))) cfg with
          | true =>
              rw [if_pos rfl]
              refine ⟨?_, ?_⟩ <;> simp
          | false =>
              rw [if_neg (by simp)]
              have ih' := ih (i + 1)
                ((selectBestTechnique q cfg.adaptiveStrategy t ts).apply img)
                (assessQuality (oracle (i + 1)))
                (steps ++ [⟨i, img,
                  (selectBestTechnique q cfg.adaptiveStrategy t ts).apply img, q,
                  assessQuality (oracle (i + 1)),
                  calculateImprovements q (assessQuality (oracle (i + 1))),
                  [(selectBestTechnique q cfg.adaptiveStrategy t ts).name]⟩])
              simp only [List.length_append, List.length_cons, List.length_nil] at ih'
              exact ⟨by omega, by omega⟩

/-- C5.  A refinement run with `maxIterations = N` executes at most `N`
loop iterations and records at most `N` refinement steps. -/
theorem refineImage_respects_maxIterations (cfg : RefinementConfig)
    (oracle : ℕ → AssessOutcome) (initialImage : String) :
    (refineImage cfg oracle initialImage).steps.length ≤ cfg.maxIterations ∧
    (refineImage cfg oracle initialImage).iteration ≤ cfg.maxIterations := by
  have h := refineLoop_bounds cfg oracle cfg.maxIterations 0 initialImage
    (assessQuality (oracle 0)) []
  simpa [refineImage] using h

end Refinement

namespace Refinement

/-- Every exit of the refinement loop reports the total improvement of
exactly the step list it returns. -/
theorem refineLoop_totalImprovement (cfg : RefinementConfig)
    (oracle : ℕ → AssessOutcome) :
    ∀ (budget i : ℕ) (img : String) (q : QualityMetrics)
      (steps : List RefinementStep),
      (refineLoop cfg oracle budget i img q steps).totalImprovement =
        calculateTotalImprovement (refineLoop cfg oracle budget i img q steps).steps := by
  intro budget
  induction budget with
  | zero =>
      intro i img q steps
      simp [refineLoop]
  | succ b ih =>
      intro i img q steps
      cases hfilter : cfg.techniques.filter (fun t => t.applicability q) with
      | nil => simp only [refineLoop, hfilter]
      | cons t ts =>
          simp only [refineLoop, hfilter]
          cases hconv : checkConvergence (assessQuality (oracle (i + 1))) cfg with
          | true => rw [if_pos rfl]
          | false =>
              rw [if_neg (by simp)]
              exact ih _ _ _ _

/-- Every run of the refinement loop either returns its accumulator and
entry quality untouched, or appends a nonempty chain of steps whose
first step starts at the entry quality and whose last step ends at the
returned quality. -/
theorem refineLoop_chain (cfg : RefinementConfig) (oracle : ℕ → AssessOutcome) :
    ∀ (budget i : ℕ) (img : String) (q : QualityMetrics)
      (steps : List RefinementStep),
      ((refineLoop cfg oracle budget i img q steps).steps = steps ∧
        (refineLoop cfg oracle budget i img q steps).quality = q) ∨
      (∃ s₀ rest,
        (refineLoop cfg oracle budget i img q steps).steps = steps ++ s₀ :: rest ∧
        s₀.qualityBefore = q ∧
        ∃ sl, (s₀ :: rest).getLast? = some sl ∧
          sl.qualityAfter = (refineLoop cfg oracle budget i img q steps).quality) := by
  intro budget
  induction budget with
  | zero =>
      intro i img q steps
      left
      simp [refineLoop]
  | succ b ih =>
      intro i img q steps
      cases hfilter : cfg.techniques.filter (fun t => t.applicability q) with
      | nil =>
          left
          simp [refineLoop, hfilter]
      | cons t ts =>
          simp only [refineLoop, hfilter]
          cases hconv : checkConvergence (assessQuality (oracle (i + 1))) cfg with
          | true =>
              rw [if_pos rfl]
              right
              refine ⟨_, [], rfl, rfl,
                ⟨i, img,
                (selectBestTechnique q cfg.adaptiveStrategy t ts).apply img, q,
                assessQuality (oracle (i + 1)),
                calculateImprovements q (assessQuality (oracle (i + 1))),
                [(selectBestTechnique q cfg.adaptiveStrategy t ts).name]⟩, ?_, rfl⟩
              simp
          | false =>
              rw [if_neg (by simp)]
              right
              rcases ih (i + 1)
                  ((selectBestTechnique q cfg.adaptiveStrategy t ts).apply img)
                  (assessQuality (oracle (i + 1)))
                  (steps ++ [⟨i, img,
                    (selectBestTechnique q cfg.adaptiveStrategy t ts).apply img, q,
                    assessQuality (oracle (i + 1)),
                    calculateImprovements q (assessQuality (oracle (i + 1))),
                    [(selectBestTechnique q cfg.adaptiveStrategy t ts).name]⟩])
                with h | h
              · refine ⟨_, [], h.1, rfl,
                  ⟨i, img,
                (selectBestTechnique q cfg.adaptiveStrategy t ts).apply img, q,
                assessQuality (oracle (i + 1)),
                calculateImprovements q (assessQuality (oracle (i + 1))),
                [(selectBestTechnique q cfg.adaptiveStrategy t ts).name]⟩, ?_, ?_⟩
                · simp
                · exact h.2.symm
              · obtain ⟨s₀, rest, hsteps, hqb, sl, hlast, hqa⟩ := h
                refine ⟨⟨i, img,
                  (selectBestTechnique q cfg.adaptiveStrategy t ts).apply img, q,
                  assessQuality (oracle (i + 1)),
                  calculateImprovements q (assessQuality (oracle (i + 1))),
                  [(selectBestTechnique q cfg.adaptiveStrategy t ts).name]⟩,
                  s₀ :: rest, ?_, rfl, sl, ?_, hqa⟩
                · simpa [List.append_assoc] using hsteps
                · rw [List.getLast?_cons_cons]
                  exact hlast

/-- C2 (amended).  The reported `totalImprovement` always equals the
overall score of the returned quality minus the overall score of the
initial assessment — it is a signed difference, not a guaranteed
non-negative quantity (see the counterexample
`refineImage_quality_can_decrease`). -/
theorem refineImage_totalImprovement_eq (cfg : RefinementConfig)
    (oracle : ℕ → AssessOutcome) (initialImage : String) :
    (refineImage cfg oracle initialImage).totalImprovement =
      (refineImage cfg oracle initialImage).quality.overall -
        (assessQuality (oracle 0)).overall := by
  have htot := refineLoop_totalImprovement cfg oracle cfg.maxIterations 0
    initialImage (assessQuality (oracle 0)) []
  rcases refineLoop_chain cfg oracle cfg.maxIterations 0 initialImage
      (assessQuality (oracle 0)) [] with ⟨hsteps, hq⟩ | ⟨s₀, rest, hsteps, hqb, sl, hlast, hqa⟩
  · rw [refineImage] at *
    rw [htot, hsteps, hq]
    simp [calculateTotalImprovement]
  · rw [refineImage] at *
    rw [htot, hsteps]
    simp only [List.nil_append]
    rw [calculateTotalImprovement]
    simp only [List.head?_cons, hlast]
    rw [hqa, hqb]

end Refinement

namespace Refinement

/-- Backend behavior refuting C2: the initial assessment parses to an
overall score of 0.9, every later assessment fails and therefore
defaults to 0.5. -/
def c2oracle : ℕ → AssessOutcome := fun n =>
  if n = 0 then .parsed { overall := some (9/10) } else .transportError

/-- Default refinement configuration restricted to one iteration. -/
def c2config : RefinementConfig :=
  { defaultRefinementConfig with maxIterations := 1 }

/-- Counterexample to C2 as stated: nothing clamps the re-assessed
quality, so after one refinement iteration the returned overall score
(0.5, from a failed re-assessment) is lower than the initially assessed
overall score (0.9), and the reported `totalImprovement` is negative
(-0.4). -/
theorem refineImage_quality_can_decrease :
    (refineImage c2config c2oracle "base").totalImprovement < 0 ∧
    (refineImage c2config c2oracle "base").quality.overall <
      (assessQuality (c2oracle 0)).overall := by
  norm_num [refineImage, refineLoop, c2config, c2oracle, defaultRefinementConfig,
    defaultTechniques, assessQuality, processQualityMetrics, jsOr,
    getDefaultQualityMetrics, selectBestTechnique, techniqueScore,
    checkConvergence, calculateTotalImprovement, calculateImprovements,
    List.filter_cons, List.filter_nil]

end Refinement

namespace Refinement

/-- If, starting at iteration `i`, a technique is applicable at every
iteration up to `i + k`, none of the re-assessments before `i + k`
meets the threshold, and the re-assessment of iteration `i + k` does,
then the loop exits right after that iteration, converged, having
appended exactly `k + 1` steps. -/
theorem refineLoop_first_convergence (cfg : RefinementConfig)
    (oracle : ℕ → AssessOutcome) :
    ∀ (k budget i : ℕ) (img : String) (steps : List RefinementStep),
      k < budget →
      (∀ j, j ≤ k →
        cfg.techniques.filter
          (fun t => t.applicability (assessQuality (oracle (i + j)))) ≠ []) →
      (∀ j, j < k →
        (assessQuality (oracle (i + j + 1))).overall < cfg.qualityThreshold) →
      cfg.qualityThreshold ≤ (assessQuality (oracle (i + k + 1))).overall →
      (refineLoop cfg oracle budget i img (assessQuality (oracle i)) steps).converged
          = true ∧
        (refineLoop cfg oracle budget i img (assessQuality (oracle i)) steps).steps.length
          = steps.length + (k + 1) ∧
        (refineLoop cfg oracle budget i img (assessQuality (oracle i)) steps).iteration
          = i + (k + 1) := by
  intro k
  induction k with
  | zero =>
      intro budget i img steps hk happ hlt hge
      obtain ⟨b, rfl⟩ : ∃ b, budget = b + 1 :=
        ⟨budget - 1, by omega⟩
      have happ0 := happ 0 (le_refl 0)
      rw [Nat.add_zero] at happ0
      cases hfilter : cfg.techniques.filter
          (fun t => t.applicability (assessQuality (oracle i))) with
      | nil => exact absurd hfilter happ0
      | cons t ts =>
          have hconv : checkConvergence (assessQuality (oracle (i + 1))) cfg = true := by
            rw [checkConvergence, decide_eq_true_iff]
            simpa using hge
          simp only [refineLoop, hfilter, hconv, if_pos rfl]
          refine ⟨rfl, by simp, rfl⟩
  | succ k ih =>
      intro budget i img steps hk happ hlt hge
      obtain ⟨b, rfl⟩ : ∃ b, budget = b + 1 :=
        ⟨budget - 1, by omega⟩
      have happ0 := happ 0 (Nat.zero_le _)
      rw [Nat.add_zero] at happ0
      cases hfilter : cfg.techniques.filter
          (fun t => t.applicability (assessQuality (oracle i))) with
      | nil => exact absurd hfilter happ0
      | cons t ts =>
          have hconv : checkConvergence (assessQuality (oracle (i + 1))) cfg = false := by
            rw [checkConvergence, decide_eq_false_iff_not]
            have := hlt 0 (Nat.succ_pos k)
            rw [Nat.add_zero] at this
            exact not_le_of_lt this
          simp only [refineLoop, hfilter, hconv]
          rw [if_neg (by simp)]
          have ihres := ih b (i + 1)
            ((selectBestTechnique (assessQuality (oracle i)) cfg.adaptiveStrategy t ts).apply img)
            (steps ++ [⟨i, img,
              (selectBestTechnique (assessQuality (oracle i)) cfg.adaptiveStrategy t ts).apply img,
              assessQuality (oracle i),
              assessQuality (oracle (i + 1)),
              calculateImprovements (assessQuality (oracle i)) (assessQuality (oracle (i + 1))),
              [(selectBestTechnique (assessQuality (oracle i)) cfg.adaptiveStrategy t ts).name]⟩])
            (by omega)
            (by
              intro j hj
              have := happ (j + 1) (Nat.succ_le_succ hj)
              simpa [show i + (j + 1) = i + 1 + j by omega] using this)
            (by
              intro j hj
              have := hlt (j + 1) (Nat.succ_lt_succ hj)
              simpa [show i + (j + 1) + 1 = i + 1 + j + 1 by omega] using this)
            (by simpa [show i + (k + 1) + 1 = i + 1 + k + 1 by omega] using hge)
          refine ⟨ihres.1, ?_, ?_⟩
          · rw [ihres.2.1]
            simp
            omega
          · rw [ihres.2.2]
            omega

/-- C6.  If the in-loop re-assessed overall quality first reaches
`qualityThreshold` at iteration `k < maxIterations` (and a technique is
applicable at every iteration up to `k`), then the refinement loop
terminates right after iteration `k`: the run is reported converged,
exactly `k + 1` steps are recorded, and no iteration `k + 1` runs. -/
theorem refineImage_stops_at_first_convergence (cfg : RefinementConfig)
    (oracle : ℕ → AssessOutcome) (initialImage : String) (k : ℕ)
    (hk : k < cfg.maxIterations)
    (happ : ∀ j, j ≤ k →
      cfg.techniques.filter
        (fun t => t.applicability (assessQuality (oracle j))) ≠ [])
    (hlt : ∀ j, j < k →
      (assessQuality (oracle (j + 1))).overall < cfg.qualityThreshold)
    (hge : cfg.qualityThreshold ≤ (assessQuality (oracle (k + 1))).overall) :
    (refineImage cfg oracle initialImage).converged = true ∧
    (refineImage cfg oracle initialImage).steps.length = k + 1 ∧
    (refineImage cfg oracle initialImage).iteration = k + 1 := by
  have h := refineLoop_first_convergence cfg oracle k cfg.maxIterations 0
    initialImage [] hk
    (by intro j hj; simpa using happ j hj)
    (by intro j hj; simpa using hlt j hj)
    (by simpa using hge)
  simpa [refineImage] using h

/-- Oracle for the C6 witness: the initial assessment has no content
(defaulting to all 0.5), the first re-assessment parses to overall
0.9 ≥ 0.85. -/
def c6oracle : ℕ → AssessOutcome := fun n =>
  if n = 0 then .noContent else .parsed { overall := some (9/10) }

/-- Witness for C6 at the default configuration (maxIterations 5,
threshold 0.85) and k = 0: the threshold is met on the first in-loop
re-assessment, one step is recorded and the loop stops converged. -/
theorem refineImage_stops_at_first_convergence_witness :
    (0 < defaultRefinementConfig.maxIterations ∧
      (∀ j, j ≤ 0 →
        defaultRefinementConfig.techniques.filter
          (fun t => t.applicability (assessQuality (c6oracle j))) ≠ []) ∧
      (∀ j, j < 0 →
        (assessQuality (c6oracle (j + 1))).overall <
          defaultRefinementConfig.qualityThreshold) ∧
      defaultRefinementConfig.qualityThreshold ≤
        (assessQuality (c6oracle (0 + 1))).overall) ∧
    ((refineImage defaultRefinementConfig c6oracle "image").converged = true ∧
      (refineImage defaultRefinementConfig c6oracle "image").steps.length = 0 + 1 ∧
      (refineImage defaultRefinementConfig c6oracle "image").iteration = 0 + 1) := by
  have happ : ∀ j, j ≤ 0 →
      defaultRefinementConfig.techniques.filter
        (fun t => t.applicability (assessQuality (c6oracle j))) ≠ [] := by
    intro j hj
    have hj0 : j = 0 := Nat.le_zero.mp hj
    subst hj0
    norm_num [defaultRefinementConfig, defaultTechniques, c6oracle, assessQuality,
      getDefaultQualityMetrics, List.filter_cons, List.filter_nil]
    simp
  have hlt : ∀ j, j < 0 →
      (assessQuality (c6oracle (j + 1))).overall <
        defaultRefinementConfig.qualityThreshold := by
    intro j hj
    exact absurd hj (Nat.not_lt_zero j)
  have hge : defaultRefinementConfig.qualityThreshold ≤
      (assessQuality (c6oracle (0 + 1))).overall := by
    norm_num [defaultRefinementConfig, c6oracle, assessQuality,
      processQualityMetrics, jsOr]
  exact ⟨⟨by norm_num [defaultRefinementConfig], happ, hlt, hge⟩,
    refineImage_stops_at_first_convergence defaultRefinementConfig c6oracle
      "image" 0 (by norm_num [defaultRefinementConfig]) happ hlt hge⟩

end Refinement

namespace StyleFusion

/-!
Embedding of the `StyleTransferEngine` part of
`src/victorcore/src/lib/socket.ts` (lines 58-889).  Categorical
descriptors (`balance`, `lighting.type`, moods, ...) are modelled as
strings, since the source also assigns values outside the declared
literal unions (e.g. `mixed` in `createCompositeProfile`).  A semantic
region coming from the untyped content-analysis JSON carries optional
`mood`, `complexity`, `concepts` and `bounds` fields; JavaScript
truthiness of the guards `region.mood && ...` and
`region.complexity && ...` (empty string and zero are falsy) is
modelled explicitly.
-/

structure BrushworkCharacteristics where
  technique : String
  texture : ℚ
  strokeDirection : List String
  consistency : ℚ
  expressiveness : ℚ
  fluidity : ℚ
deriving DecidableEq, Repr

structure FocalPoint where
  x : ℚ
  y : ℚ
  strength : ℚ
deriving DecidableEq, Repr

structure CompositionCharacteristics where
  balance : String
  focalPoints : List FocalPoint
  rhythm : String
  flow : String
  depth : ℚ
  movement : String
deriving DecidableEq, Repr

structure LightingCharacteristics where
  type : String
  direction : String
  intensity : ℚ
  contrast : ℚ
  shadows : ℚ
  highlights : ℚ
  atmosphere : ℚ
deriving DecidableEq, Repr

structure MoodCharacteristics where
  primary : String
  secondary : String
  intensity : ℚ
  emotionalImpact : ℚ
  atmosphere : String
  resonance : ℚ
deriving DecidableEq, Repr

structure StyleProfile where
  id : String
  name : String
  colorPalette : List String
  brushwork : BrushworkCharacteristics
  composition : CompositionCharacteristics
  lighting : LightingCharacteristics
  mood : MoodCharacteristics
  artisticMovement : String
  culturalContext : String
  complexity : ℚ
  adaptability : ℚ
deriving DecidableEq, Repr

structure StyleTransferConfig where
  strength : ℚ
  preserveContent : ℚ
  colorInfluence : ℚ
  textureInfluence : ℚ
  compositionInfluence : ℚ
  adaptiveBlending : Bool
  multiStyle : Bool
  semanticAwareness : Bool
deriving DecidableEq, Repr

structure Bounds where
  x : ℚ
  y : ℚ
  width : ℚ
  height : ℚ
deriving DecidableEq, Repr

/-- A semantic region of the untyped content analysis result:
`region.mood`, `region.complexity`, `region.concepts`, `region.bounds`
may each be absent. -/
structure RegionInfo where
  mood : Option String
  complexity : Option ℚ
  concepts : List String
  bounds : Option Bounds
deriving DecidableEq, Repr

/-- The content analysis object; `contentAnalysis.regions || []` is
folded into the field. -/
structure ContentAnalysis where
  regions : List RegionInfo
deriving DecidableEq, Repr

structure FusionRegion where
  id : String
  bounds : Bounds
  dominantStyle : String
  blendWeights : List (String × ℚ)
  semanticContent : List String
  adaptationLevel : ℚ
deriving DecidableEq, Repr

structure FusionMap where
  regions : List FusionRegion
  blendWeights : List (List ℚ)
  styleDistribution : List (String × ℚ)
  semanticPreservation : ℚ
deriving DecidableEq, Repr

/-- JavaScript truthiness of `region.mood && profile.mood.primary ===
region.mood`: an absent or empty mood string never matches. -/
def moodMatches (region : RegionInfo) (profile : StyleProfile) : Bool :=
  match region.mood with
  | none => false
  | some m => if m = "" then false else profile.mood.primary = m

/-- JavaScript truthiness of `region.complexity && Math.abs(...)`:
an absent or zero complexity never scores. -/
def complexityClose (region : RegionInfo) (profile : StyleProfile) : Bool :=
  match region.complexity with
  | none => false
  | some c => if c = 0 then false else |profile.complexity - c| < 3/10

/-- The score of one style profile for a region in
`selectBestStyleForRegion` (lines 511-542). -/
def regionStyleScore (region : RegionInfo) (profile : StyleProfile) : ℚ :=
  (if moodMatches region profile then 3/10 else 0) +
    (if complexityClose region profile then 2/10 else 0) +
    profile.adaptability * (2/10)

/-- `StyleTransferEngine.selectBestStyleForRegion` (lines 511-542):
`bestStyle` starts at `styleProfiles[0]` with `bestScore = 0` and is
replaced whenever a profile scores strictly higher. -/
def selectBestStyleForRegion (region : RegionInfo) (hd : StyleProfile)
    (tl : List StyleProfile) : StyleProfile :=
  ((hd :: tl).foldl
    (fun best profile =>
      if best.2 < regionStyleScore region profile then
        (profile, regionStyleScore region profile)
      else best)
    (hd, 0)).1

/-- The un-normalized weight one profile receives in
`calculateBlendWeights` (lines 547-575): `1/n`, times 1.2 on a mood
match, times the global strength. -/
def blendWeightOf (region : RegionInfo) (styleProfiles : List StyleProfile)
    (config : StyleTransferConfig) (profile : StyleProfile) : ℚ :=
  let weight := 1 / (styleProfiles.length : ℚ)
  let weight := if moodMatches region profile then weight * (12/10) else weight
  weight * config.strength

/-- The `forEach`/`Map.set` accumulation of `calculateBlendWeights`. -/
def blendFold (region : RegionInfo) (styleProfiles : List StyleProfile)
    (config : StyleTransferConfig) (ps : List StyleProfile)
    (acc : List (String × ℚ)) : List (String × ℚ) :=
  ps.foldl
    (fun acc profile =>
      mapSet acc profile.id (blendWeightOf region styleProfiles config profile))
    acc

/-- `StyleTransferEngine.calculateBlendWeights` (lines 547-575): build
the per-profile weight map, then normalize every entry in place by the
total weight. -/
def calculateBlendWeights (region : RegionInfo) (styleProfiles : List StyleProfile)
    (config : StyleTransferConfig) : List (String × ℚ) :=
  let weights := blendFold region styleProfiles config styleProfiles []
  let totalWeight := sumValues weights
  weights.map (fun p => (p.1, p.2 / totalWeight))

/-- `StyleTransferEngine.calculateAdaptationLevel` (lines 580-592).
`region.complexity > 0.7` on an absent field is false in JavaScript. -/
def complexityHigh (region : RegionInfo) : Bool :=
  match region.complexity with
  | some c => (7/10 : ℚ) < c
  | none => false

def calculateAdaptationLevel (region : RegionInfo) (style : StyleProfile) : ℚ :=
  let adaptationLevel : ℚ := 1/2
  let adaptationLevel :=
    if complexityHigh region then adaptationLevel + 2/10 else adaptationLevel
  min 1 (adaptationLevel + style.adaptability * (3/10))

/-- `StyleTransferEngine.generateBlendMatrix` (lines 597-610). -/
def generateBlendMatrix (regions : List FusionRegion)
    (styleProfiles : List StyleProfile) : List (List ℚ) :=
  regions.map (fun region =>
    styleProfiles.map (fun profile =>
      (lookupMap region.blendWeights profile.id).getD 0))

/-- The `for (let i = 0; i < semanticRegions.length; i++)` loop of
`generateFusionMap` (lines 482-498), building one `FusionRegion` per
semantic region. -/
def buildRegions (styleHd : StyleProfile) (styleTl : List StyleProfile)
    (config : StyleTransferConfig) : ℕ → List RegionInfo → List FusionRegion
  | _, [] => []
  | i, region :: rest =>
      { id := "region_" ++ toString i
        bounds := region.bounds.getD ⟨0, 0, 1, 1⟩
        dominantStyle := (selectBestStyleForRegion region styleHd styleTl).id
        blendWeights := calculateBlendWeights region (styleHd :: styleTl) config
        semanticContent := region.concepts
        adaptationLevel :=
          calculateAdaptationLevel region
            (selectBestStyleForRegion region styleHd styleTl) } ::
        buildRegions styleHd styleTl config (i + 1) rest

/-- `StyleTransferEngine.generateFusionMap` (lines 464-506).  With an
empty profile list the source dereferences `styleProfiles[0]` and
fails; that case (excluded by every caller and by the claim) is mapped
to an empty fusion map. -/
def generateFusionMap (contentAnalysis : ContentAnalysis)
    (styleProfiles : List StyleProfile) (config : StyleTransferConfig) : FusionMap :=
  match styleProfiles with
  | [] => ⟨[], [], [], config.preserveContent⟩
  | hd :: tl =>
      let regions := buildRegions hd tl config 0 contentAnalysis.regions
      { regions := regions
        blendWeights := generateBlendMatrix regions styleProfiles
        styleDistribution :=
          styleProfiles.foldl
            (fun acc p => mapSet acc p.id (1 / (styleProfiles.length : ℚ))) []
        semanticPreservation := config.preserveContent }

/-- `StyleTransferEngine.getDefaultStyleProfile` (lines 379-422). -/
def getDefaultStyleProfile (index : ℕ) : StyleProfile :=
  { id := "style_" ++ toString index
    name := "Style " ++ toString (index + 1)
    colorPalette := []
    brushwork :=
      { technique := "unknown", texture := 1/2, strokeDirection := []
        consistency := 1/2, expressiveness := 1/2, fluidity := 1/2 }
    composition :=
      { balance := "dynamic", focalPoints := [], rhythm := "regular"
        flow := "smooth", depth := 1/2, movement := "static" }
    lighting :=
      { type := "natural", direction := "frontal", intensity := 1/2
        contrast := 1/2, shadows := 1/2, highlights := 1/2, atmosphere := 1/2 }
    mood :=
      { primary := "neutral", secondary := "neutral", intensity := 1/2
        emotionalImpact := 1/2, atmosphere := "neutral", resonance := 1/2 }
    artisticMovement := "contemporary"
    culturalContext := "modern"
    complexity := 1/2
    adaptability := 1/2 }

end StyleFusion

namespace StyleFusion

theorem blendWeightOf_pos (region : RegionInfo) (styleProfiles : List StyleProfile)
    (config : StyleTransferConfig) (profile : StyleProfile)
    (hne : styleProfiles ≠ []) (hs : 0 < config.strength) :
    0 < blendWeightOf region styleProfiles config profile := by
  have hn : 0 < (styleProfiles.length : ℚ) := by
    have := List.length_pos.mpr hne
    exact_mod_cast this
  unfold blendWeightOf
  split_ifs <;> positivity

theorem blendFold_values_pos (region : RegionInfo) (styleProfiles : List StyleProfile)
    (config : StyleTransferConfig)
    (hne : styleProfiles ≠ []) (hs : 0 < config.strength) :
    ∀ (ps : List StyleProfile) (acc : List (String × ℚ)),
      (∀ p ∈ acc, 0 < p.2) →
      ∀ p ∈ blendFold region styleProfiles config ps acc, 0 < p.2 := by
  intro ps
  induction ps with
  | nil =>
      intro acc hacc p hp
      exact hacc p hp
  | cons hd tl ih =>
      intro acc hacc p hp
      rw [blendFold, List.foldl_cons] at hp
      exact ih _ (mapSet_values_pos _ _ _ hacc
        (blendWeightOf_pos region styleProfiles config hd hne hs)) p hp

theorem blendFold_keys (region : RegionInfo) (styleProfiles : List StyleProfile)
    (config : StyleTransferConfig) :
    ∀ (ps : List StyleProfile) (acc : List (String × ℚ)),
      (∀ q ∈ ps, q.id ∉ acc.map Prod.fst) →
      (ps.map (fun p => p.id)).Nodup →
      (blendFold region styleProfiles config ps acc).map Prod.fst =
        acc.map Prod.fst ++ ps.map (fun p => p.id) := by
  intro ps
  induction ps with
  | nil =>
      intro acc hfresh hnd
      simp [blendFold]
  | cons hd tl ih =>
      intro acc hfresh hnd
      rw [blendFold, List.foldl_cons, ← blendFold]
      have hhd : hd.id ∉ acc.map Prod.fst := hfresh hd (List.mem_cons_self hd tl)
      have hkeys := keys_mapSet_fresh acc hd.id
        (blendWeightOf region styleProfiles config hd) hhd
      rw [List.map_cons, List.nodup_cons] at hnd
      have hfresh' : ∀ q ∈ tl,
          q.id ∉ (mapSet acc hd.id
            (blendWeightOf region styleProfiles config hd)).map Prod.fst := by
        intro q hq
        rw [hkeys]
        intro hmem
        rcases List.mem_append.mp hmem with hmem | hmem
        · exact hfresh q (List.mem_cons_of_mem hd hq) hmem
        · rw [List.mem_singleton] at hmem
          exact hnd.1 (hmem ▸ List.mem_map_of_mem (fun p => p.id) hq)
      rw [ih _ hfresh' hnd.2, hkeys]
      simp

theorem calculateBlendWeights_spec (region : RegionInfo)
    (styleProfiles : List StyleProfile) (config : StyleTransferConfig)
    (hne : styleProfiles ≠ []) (hs : 0 < config.strength)
    (hnd : (styleProfiles.map (fun p => p.id)).Nodup) :
    sumValues (calculateBlendWeights region styleProfiles config) = 1 ∧
    (calculateBlendWeights region styleProfiles config).length =
      styleProfiles.length := by
  have hkeys :
      (blendFold region styleProfiles config styleProfiles []).map Prod.fst =
        styleProfiles.map (fun p => p.id) := by
    have := blendFold_keys region styleProfiles config styleProfiles []
      (by intro q hq; simp) hnd
    simpa using this
  have hlen : (blendFold region styleProfiles config styleProfiles []).length =
      styleProfiles.length := by
    have := congrArg List.length hkeys
    simpa using this
  have hnonempty : blendFold region styleProfiles config styleProfiles [] ≠ [] := by
    intro h
    rw [h] at hlen
    exact hne (List.length_eq_zero.mp hlen.symm)
  have hpos : ∀ p ∈ blendFold region styleProfiles config styleProfiles [], 0 < p.2 :=
    blendFold_values_pos region styleProfiles config hne hs styleProfiles []
      (by intro p hp; simp at hp)
  have htot : 0 < sumValues (blendFold region styleProfiles config styleProfiles []) :=
    sum_pos_of_all_pos _ hnonempty hpos
  constructor
  · rw [calculateBlendWeights]
    rw [sumValues_map_div]
    exact div_self (ne_of_gt htot)
  · rw [calculateBlendWeights]
    simpa using hlen

theorem mem_buildRegions (styleHd : StyleProfile) (styleTl : List StyleProfile)
    (config : StyleTransferConfig) :
    ∀ (rs : List RegionInfo) (i : ℕ) (r : FusionRegion),
      r ∈ buildRegions styleHd styleTl config i rs →
      ∃ region, r.blendWeights =
        calculateBlendWeights region (styleHd :: styleTl) config := by
  intro rs
  induction rs with
  | nil =>
      intro i r hr
      simp [buildRegions] at hr
  | cons region rest ih =>
      intro i r hr
      rw [buildRegions] at hr
      rcases List.mem_cons.mp hr with hr | hr
      · exact ⟨region, by rw [hr]⟩
      · exact ih (i + 1) r hr

/-- C4.  Every fusion region built by `generateFusionMap` from a
non-empty style profile list with distinct profile ids and positive
global strength carries one blend-weight entry per style profile, and
those weights sum to exactly 1 (hence to 1.0 within any tolerance).
(Profile lists produced by `extractStyleProfiles` always have the
distinct ids `style_0`, `style_1`, ....) -/
theorem fusion_region_weights_sum_to_one (analysis : ContentAnalysis)
    (styleProfiles : List StyleProfile) (config : StyleTransferConfig)
    (hne : styleProfiles ≠ []) (hs : 0 < config.strength)
    (hnd : (styleProfiles.map (fun p => p.id)).Nodup) :
    ∀ r ∈ (generateFusionMap analysis styleProfiles config).regions,
      sumValues r.blendWeights = 1 ∧
      r.blendWeights.length = styleProfiles.length := by
  intro r hr
  cases styleProfiles with
  | nil => exact absurd rfl hne
  | cons hd tl =>
      simp only [generateFusionMap] at hr
      obtain ⟨region, hbw⟩ := mem_buildRegions hd tl config analysis.regions 0 r hr
      rw [hbw]
      exact calculateBlendWeights_spec region (hd :: tl) config hne hs hnd

end StyleFusion

namespace StyleFusion

/-- Two default style profiles (ids `style_0`, `style_1`), as
`extractStyleProfiles` produces them. -/
def c4profiles : List StyleProfile := [getDefaultStyleProfile 0, getDefaultStyleProfile 1]

/-- One semantic region with no mood, complexity, concepts or bounds. -/
def c4analysis : ContentAnalysis := ⟨[⟨none, none, [], none⟩]⟩

/-- The default style-transfer configuration of `transferStyle`
(strength 0.7) with `multiStyle` set for two style inputs. -/
def c4config : StyleTransferConfig :=
  ⟨7/10, 6/10, 8/10, 6/10, 1/2, true, true, true⟩

/-- Witness for C4: for the concrete two-profile fusion above, every
built region's blend weights sum to 1 with one entry per profile. -/
theorem fusion_region_weights_sum_to_one_witness :
    (c4profiles ≠ [] ∧ 0 < c4config.strength ∧
      (c4profiles.map (fun p => p.id)).Nodup) ∧
    (∀ r ∈ (generateFusionMap c4analysis c4profiles c4config).regions,
      sumValues r.blendWeights = 1 ∧
      r.blendWeights.length = c4profiles.length) := by
  have hne : c4profiles ≠ [] := by simp [c4profiles]
  have hs : 0 < c4config.strength := by norm_num [c4config]
  have hnd : (c4profiles.map (fun p => p.id)).Nodup := by
    simp [c4profiles, getDefaultStyleProfile]
    decide
  exact ⟨⟨hne, hs, hnd⟩,
    fusion_region_weights_sum_to_one c4analysis c4profiles c4config hne hs hnd⟩

end StyleFusion

namespace Ensemble

/-!
Embedding of `AMSSEngine.generateEnsemble` and
`AMSSEngine.adaptiveFusion` from
`src/victorcore/src/lib/amss-engine.ts`.  Each `generateWithModel` call
(a backend synthesis whose scores are environment random numbers) is
one element of an outcome oracle indexed by the loop variable `i`:
`none` means the call threw and the candidate is excluded by the
`catch`, `some r` is the produced candidate.  The
environment-dependent `processingTime` and the untyped
`refinementHistory` of the metadata are omitted.
-/

structure GenMetadata where
  modelsUsed : List String
  techniquesApplied : List String
deriving DecidableEq, Repr

structure GenerationResult where
  imageData : String
  qualityScore : ℚ
  semanticCoherence : ℚ
  aestheticScore : ℚ
  iteration : ℕ
  metadata : GenMetadata
deriving DecidableEq, Repr

/-- The fixed model roster of `generateEnsemble` (lines 290-294). -/
def models : List String :=
  ["gemini-2.5-flash", "gemini-2.5-flash-image-preview", "gemini-pro-vision"]

/-- `AMSSEngine.generateEnsemble` (lines 283-313) over an arbitrary
roster: for `i` in `[0, min(ensembleSize, roster.length))` attempt one
candidate; a failed call is caught, logged, and excluded. -/
def generateEnsembleWith (roster : List String)
    (outcomes : ℕ → Option GenerationResult) (ensembleSize : ℕ) :
    List GenerationResult :=
  (List.range (min ensembleSize roster.length)).filterMap outcomes

/-- `generateEnsemble` with the roster fixed in the source. -/
def generateEnsemble (outcomes : ℕ → Option GenerationResult)
    (ensembleSize : ℕ) : List GenerationResult :=
  generateEnsembleWith models outcomes ensembleSize

/-- The first-occurrence deduplication of `[...new Set(list)]`. -/
def dedupFirst : List String → List String → List String
  | _, [] => []
  | seen, x :: xs =>
      if x ∈ seen then dedupFirst seen xs
      else x :: dedupFirst (x :: seen) xs

/-- `AMSSEngine.adaptiveFusion` (lines 396-427): throw
`NoCandidatesError` (the `No ensemble results to fuse` error) on an
empty ensemble; otherwise sort by quality score descending (stable)
and build the fused result from the best candidate, annotated with the
union of all candidates' model identifiers. -/
def adaptiveFusion (ensembleResults : List GenerationResult) :
    Except String GenerationResult :=
  match sortDescBy (fun r => r.qualityScore) ensembleResults with
  | [] => .error "No ensemble results to fuse"
  | best :: rest =>
      .ok
        { imageData := best.imageData
          qualityScore := best.qualityScore
          semanticCoherence := best.semanticCoherence
          aestheticScore := best.aestheticScore
          iteration := 0
          metadata :=
            { modelsUsed :=
                dedupFirst []
                  ((best :: rest).flatMap (fun r => r.metadata.modelsUsed))
              techniquesApplied := ["adaptive-fusion", "quality-weighting"] } }

/-- C9.  With `ensembleSize = N` over a roster of `R` models, the
ensemble holds exactly one candidate per successful model among the
first `min(N, R)` attempts — a failure excludes only that candidate —
and `adaptiveFusion` aborts with the fatal no-candidates error exactly
when every attempted model failed. -/
theorem ensemble_isolates_failures (roster : List String)
    (outcomes : ℕ → Option GenerationResult) (N : ℕ) :
    (generateEnsembleWith roster outcomes N).length =
      ((List.range (min N roster.length)).filter
        (fun i => (outcomes i).isSome)).length ∧
    ((∃ e, adaptiveFusion (generateEnsembleWith roster outcomes N) = .error e) ↔
      ∀ i ∈ List.range (min N roster.length), outcomes i = none) := by
  constructor
  · exact length_filterMap_eq_count outcomes _
  · have hlen : (sortDescBy (fun r : GenerationResult => r.qualityScore)
        (generateEnsembleWith roster outcomes N)).length =
        (generateEnsembleWith roster outcomes N).length :=
      length_sortDescBy _ _
    constructor
    · intro ⟨e, he⟩ i hi
      cases hsort : sortDescBy (fun r : GenerationResult => r.qualityScore)
          (generateEnsembleWith roster outcomes N) with
      | cons best rest =>
          rw [adaptiveFusion, hsort] at he
          exact absurd he (by simp)
      | nil =>
          rw [hsort] at hlen
          have hemp : generateEnsembleWith roster outcomes N = [] :=
            List.length_eq_zero.mp hlen.symm
          rw [generateEnsembleWith, List.filterMap_eq_nil_iff] at hemp
          exact hemp i hi
    · intro hall
      have hemp : generateEnsembleWith roster outcomes N = [] := by
        rw [generateEnsembleWith, List.filterMap_eq_nil_iff]
        exact hall
      refine ⟨"No ensemble results to fuse", ?_⟩
      rw [adaptiveFusion, hemp]
      rfl

end Ensemble

namespace Semantic

/-!
Embedding of the `SemanticAnalyzer` cache of `src/unnamed/part_004`.
The analysis phases 1-5 of `analyzeImage` (concept extraction, graph
construction, style/emotional/cultural analysis) are all backend
driven; they are abstracted as an arbitrary `compute` function into an
arbitrary result type, because the verified property concerns only the
cache protocol around them.  `JSON.stringify(options)` on the options
object is a deterministic serialization (fields in declaration order,
absent fields skipped), modelled by `stringifyOptions`.
-/

inductive Depth where
  | basic
  | detailed
  | comprehensive
deriving DecidableEq, Repr

/-- The options object of `analyzeImage`; every field is optional. -/
structure AnalysisOptions where
  depth : Option Depth := none
  includeStyle : Option Bool := none
  includeEmotional : Option Bool := none
  includeCultural : Option Bool := none
deriving DecidableEq, Repr

def depthString : Depth → String
  | .basic => "basic"
  | .detailed => "detailed"
  | .comprehensive => "comprehensive"

def jsonBool (b : Bool) : String :=
  if b then "true" else "false"

/-- `JSON.stringify(options)`: present fields in declaration order,
absent (`undefined`) fields skipped. -/
def stringifyOptions (o : AnalysisOptions) : String :=
  let fields :=
    (match o.depth with
      | some d => ["\x22depth\x22:\x22" ++ depthString d ++ "\x22"]
      | none => []) ++
    (match o.includeStyle with
      | some b => ["\x22includeStyle\x22:" ++ jsonBool b]
      | none => []) ++
    (match o.includeEmotional with
      | some b => ["\x22includeEmotional\x22:" ++ jsonBool b]
      | none => []) ++
    (match o.includeCultural with
      | some b => ["\x22includeCultural\x22:" ++ jsonBool b]
      | none => [])
  "\x7b" ++ String.intercalate "," fields ++ "\x7d"

/-- `SemanticAnalyzer.generateCacheKey` (lines 622-625): the first 50
characters of the image data plus the serialized options. -/
def generateCacheKey (imageData : String) (options : AnalysisOptions) : String :=
  imageData.take 50 ++ "_" ++ stringifyOptions options

/-- `SemanticAnalyzer.analyzeImage` (lines 125-193) restricted to its
cache protocol: look the key up first and return the hit unchanged;
otherwise run the analysis phases (`compute`) and store the result
under the key. -/
def analyzeImage {α : Type} (compute : String → AnalysisOptions → α)
    (cache : List (String × α)) (imageData : String)
    (options : AnalysisOptions) : α × List (String × α) :=
  let cacheKey := generateCacheKey imageData options
  match lookupMap cache cacheKey with
  | some r => (r, cache)
  | none =>
      let result := compute imageData options
      (result, mapSet cache cacheKey result)

/-- C10.  The analysis cache key depends only on the first 50
characters of the image data and the serialized options: whatever the
cache state, a second `analyzeImage` call whose image shares the first
50 characters of a first call's image and whose options are equal
returns exactly the first call's result — even when the two images
differ beyond the prefix and the analysis phases (`compute₂`) would
have produced something else. -/
theorem analysis_cache_collides_on_50_char_prefix {α : Type}
    (compute₁ compute₂ : String → AnalysisOptions → α)
    (cache : List (String × α)) (img₁ img₂ : String)
    (opts₁ opts₂ : AnalysisOptions)
    (hpre : img₁.take 50 = img₂.take 50) (hopts : opts₁ = opts₂) :
    (analyzeImage compute₂ (analyzeImage compute₁ cache img₁ opts₁).2
        img₂ opts₂).1 =
      (analyzeImage compute₁ cache img₁ opts₁).1 := by
  have hkey : generateCacheKey img₂ opts₂ = generateCacheKey img₁ opts₁ := by
    rw [generateCacheKey, generateCacheKey, hpre, hopts]
  cases hl : lookupMap cache (generateCacheKey img₁ opts₁) with
  | some r =>
      simp only [analyzeImage, hl, hkey]
  | none =>
      simp only [analyzeImage, hl, hkey, lookupMap_mapSet_self]

/-- First witness image: fifty `a` characters followed by `X`. -/
def c10img₁ : String := "aaaaaaaaaaaaaaaaaaaaaaaaaaaaaaaaaaaaaaaaaaaaaaaaaaX"

/-- Second witness image: same 50-character prefix, different tail. -/
def c10img₂ : String := "aaaaaaaaaaaaaaaaaaaaaaaaaaaaaaaaaaaaaaaaaaaaaaaaaaY"

/-- Witness for C10: two distinct images sharing a 50-character prefix,
equal (default) options, an empty cache, and two analysis functions
that disagree — the second call still returns the first call's
result. -/
theorem analysis_cache_collides_on_50_char_prefix_witness :
    (c10img₁.take 50 = c10img₂.take 50 ∧ c10img₁ ≠ c10img₂ ∧
      (AnalysisOptions.mk none none none none) =
        (AnalysisOptions.mk none none none none)) ∧
    (analyzeImage (fun _ _ => (99 : ℕ))
        (analyzeImage (fun _ _ => (7 : ℕ)) [] c10img₁
          (AnalysisOptions.mk none none none none)).2
        c10img₂ (AnalysisOptions.mk none none none none)).1 =
      (analyzeImage (fun _ _ => (7 : ℕ)) [] c10img₁
        (AnalysisOptions.mk none none none none)).1 := by
  have hpre : c10img₁.take 50 = c10img₂.take 50 := by decide
  exact ⟨⟨hpre, by decide, rfl⟩,
    analysis_cache_collides_on_50_char_prefix (fun _ _ => (7 : ℕ))
      (fun _ _ => (99 : ℕ)) [] c10img₁ c10img₂ _ _ hpre rfl⟩

end Semantic
